import Mathlib

/-!
A shallow embedding of the `emca_backend` FastAPI service (`main.py`,
`models.py`): data model, authentication helpers and route handlers,
with theorems checking the specification's claims about them.
Times are modelled as natural numbers counting minutes since an epoch.
-/

/-- An HTTP error response: status code and detail message, as raised by
`HTTPException(status_code=..., detail=...)`. -/
structure HTTPError where
  status : Nat
  detail : String
deriving Repr, DecidableEq

/-- A row of the `admins` table (`models.Admin`). -/
structure AdminRow where
  id : Nat
  username : String
  password_hash : String
deriving Repr, DecidableEq

/-- A row of the `projects` table (`models.Project`). -/
structure ProjectRow where
  id : Nat
  title : String
  description : String
  image_url : String
deriving Repr, DecidableEq

/-- A row of the `contact_messages` table (`models.ContactMessage`). -/
structure ContactRow where
  id : Nat
  name : String
  email : String
  message : String
  timestamp : Nat
deriving Repr, DecidableEq

/-- The request body of `POST /contact/` (`main.ContactForm`): only
name, email and message; it has no timestamp field. -/
structure ContactForm where
  name : String
  email : String
  message : String
deriving Repr, DecidableEq

/-- Modelled from the spec: the request body of `POST /register-admin/`,
`{username, password}`.  `main.py` refers to a class `AdminCreate` that
is not defined anywhere in the repository sources. -/
structure AdminCreate where
  username : String
  password : String
deriving Repr, DecidableEq

/-- The request body of `PUT /projects/{id}` (`main.ProjectSchema`). -/
structure ProjectSchema where
  title : String
  description : String
  image_url : String
deriving Repr, DecidableEq

/-- An uploaded multipart file: original filename, declared content type
and raw bytes. -/
structure UploadFile where
  filename : String
  content_type : String
  content : List Nat
deriving Repr, DecidableEq

/-- The claims carried by a JWT issued by this service: the optional
`sub` entry and the `exp` entry (minutes since the epoch). -/
structure TokenPayload where
  sub : Option String
  exp : Nat
deriving Repr, DecidableEq

/-- A bearer token as seen by `jwt.decode` with the server key: either
correctly signed with `SECRET_KEY` and carrying a payload, or anything
else (tampered signature, malformed, signed with another key), which
`jose` rejects uniformly with `JWTError`. -/
inductive Token where
  | signed (payload : TokenPayload)
  | tampered
deriving Repr, DecidableEq

/-- The relational store of `models.py`: the three tables plus the
autoincrement counters of their integer primary keys. -/
structure DB where
  admins : List AdminRow
  projects : List ProjectRow
  messages : List ContactRow
  nextAdminId : Nat
  nextProjectId : Nat
  nextMessageId : Nat
deriving Repr, DecidableEq

/-- Full server state: database plus the `uploads` file store
(filename-keyed byte blobs). -/
structure Sys where
  db : DB
  files : List (String × List Nat)
deriving Repr, DecidableEq

/-- `main.ACCESS_TOKEN_EXPIRE_MINUTES`. -/
def ACCESS_TOKEN_EXPIRE_MINUTES : Nat := 30

/-- `main.UPLOAD_DIR`. -/
def UPLOAD_DIR : String := "uploads"

/-- Model of passlib bcrypt hashing (external library): an injective
tag, salting abstracted away. -/
def pwd_hash (password : String) : String := "$2b$" ++ password

/-- Model of `pwd_context.verify`. -/
def pwd_verify (password hash : String) : Bool := hash == pwd_hash password

/-- Model of `jose.jwt.decode` with the server key: rejects a bad
signature, and rejects an `exp` claim strictly in the past; both
failures raise `JWTError`, here `none`. -/
def jwt_decode (token : Token) (now : Nat) : Option TokenPayload :=
  match token with
  | Token.tampered => none
  | Token.signed p => if p.exp < now then none else some p

/-- `main.create_access_token`: copies the data (here only the `sub`
claim is ever passed), sets `exp` to now plus the given delta — by
default fifteen minutes — and signs with the server key. -/
def create_access_token (now : Nat) (sub : Option String)
    (expires_delta : Option Nat) : Token :=
  Token.signed { sub := sub, exp := now + expires_delta.getD 15 }

/-- The expiry claim a token carries, when it is well signed. -/
def tokenExp : Token → Option Nat
  | Token.signed p => some p.exp
  | Token.tampered => none

/-- `main.authenticate_admin`: looks up the admin by username and checks
the password; a missing admin and a wrong password both give `none`. -/
def authenticate_admin (username password : String) (db : DB) : Option AdminRow :=
  match db.admins.find? (fun a => a.username == username) with
  | none => none
  | some admin => if pwd_verify password admin.password_hash then some admin else none

/-- `main.get_current_admin`: decodes the bearer token, requires a
non-empty `sub` claim, and resolves it against the `admins` table; every
failure raises the same `HTTPException(401, "Invalid authentication")`. -/
def get_current_admin (now : Nat) (token : Token) (db : DB) : Except HTTPError AdminRow :=
  match jwt_decode token now with
  | none => Except.error ⟨401, "Invalid authentication"⟩
  | some payload =>
    match payload.sub with
    | none => Except.error ⟨401, "Invalid authentication"⟩
    | some username =>
      if username == "" then Except.error ⟨401, "Invalid authentication"⟩
      else
        match db.admins.find? (fun a => a.username == username) with
        | none => Except.error ⟨401, "Invalid authentication"⟩
        | some admin => Except.ok admin

/-- `main.save_message` (`POST /contact/`): inserts a ContactMessage row
whose timestamp is the server clock, and reports success. -/
def save_message (now : Nat) (contact : ContactForm) (db : DB) :
    Except HTTPError String × DB :=
  let row : ContactRow :=
    { id := db.nextMessageId, name := contact.name, email := contact.email,
      message := contact.message, timestamp := now }
  (Except.ok "Message received",
   { db with messages := db.messages ++ [row], nextMessageId := db.nextMessageId + 1 })

/-- `main.register_admin` (`POST /register-admin/`): rejects a duplicate
username with 400 before any write, otherwise inserts the new admin with
the hashed password. -/
def register_admin (admin_data : AdminCreate) (db : DB) :
    Except HTTPError String × DB :=
  match db.admins.find? (fun a => a.username == admin_data.username) with
  | some _ => (Except.error ⟨400, "Admin already exists"⟩, db)
  | none =>
    let row : AdminRow :=
      { id := db.nextAdminId, username := admin_data.username,
        password_hash := pwd_hash admin_data.password }
    (Except.ok "Admin created successfully",
     { db with admins := db.admins ++ [row], nextAdminId := db.nextAdminId + 1 })

/-- `main.login_admin` (`POST /token/`): authenticates the form
credentials and issues a token for the admin with the deployment TTL. -/
def login_admin (now : Nat) (username password : String) (db : DB) :
    Except HTTPError Token :=
  match authenticate_admin username password db with
  | none => Except.error ⟨401, "Invalid credentials"⟩
  | some admin =>
    Except.ok (create_access_token now (some admin.username)
      (some ACCESS_TOKEN_EXPIRE_MINUTES))

/-- The content types `main.create_project` accepts. -/
def allowed_types : List String := ["image/png", "image/jpeg", "image/jpg"]

/-- Python `str.strip(c)`: removes every leading and trailing occurrence
of the character `c`. -/
def stripChar (c : Char) (s : String) : String :=
  String.mk (((s.data.dropWhile (fun x => x == c)).reverse.dropWhile
    (fun x => x == c)).reverse)

/-- Overwrite the file at `name` in the store (`open` with mode `wb`). -/
def fsWrite (fs : List (String × List Nat)) (name : String) (data : List Nat) :
    List (String × List Nat) :=
  (name, data) :: fs.filter (fun e => e.1 != name)

/-- `main.create_project` (`POST /projects/`): validates the image
content type, writes the file under its original name, derives the
public URL from the request base URL, and inserts the Project row; the
validation failure is raised before any write. -/
def create_project (title description : String) (image : UploadFile)
    (base_url : String) (sys : Sys) : Except HTTPError ProjectRow × Sys :=
  if image.content_type ∈ allowed_types then
    let file_location := UPLOAD_DIR ++ "/" ++ image.filename
    let files2 := fsWrite sys.files file_location image.content
    let image_url := stripChar '/' base_url ++ "/uploads/" ++ image.filename
    let row : ProjectRow :=
      { id := sys.db.nextProjectId, title := title, description := description,
        image_url := image_url }
    let db2 : DB :=
      { sys.db with
        projects := sys.db.projects ++ [row],
        nextProjectId := sys.db.nextProjectId + 1 }
    (Except.ok row, { db := db2, files := files2 })
  else (Except.error ⟨400, "Invalid image format"⟩, sys)

/-- `main.get_projects` (`GET /projects/`): all rows. -/
def get_projects (db : DB) : List ProjectRow := db.projects

/-- `main.get_project` (`GET /projects/{id}`). -/
def get_project (project_id : Nat) (db : DB) : Except HTTPError ProjectRow :=
  match db.projects.find? (fun q => q.id == project_id) with
  | none => Except.error ⟨404, "Project not found"⟩
  | some q => Except.ok q

/-- The in-place mutation of the fetched row in `main.update_project`:
all three mutable fields overwritten, the primary key untouched. -/
def overwrite (q : ProjectRow) (ps : ProjectSchema) : ProjectRow :=
  { q with
    title := ps.title,
    description := ps.description,
    image_url := ps.image_url }

/-- Replace the first row with the given id by its overwrite, mirroring
the mutation of the row object returned by `first()`. -/
def replaceFirstProject : List ProjectRow → Nat → ProjectSchema → List ProjectRow
  | [], _, _ => []
  | q :: rest, pid, ps =>
    if q.id == pid then overwrite q ps :: rest
    else q :: replaceFirstProject rest pid ps

/-- Remove the first row with the given id, mirroring `db.delete` of the
row object returned by `first()`. -/
def eraseFirstProject : List ProjectRow → Nat → List ProjectRow
  | [], _ => []
  | q :: rest, pid => if q.id == pid then rest else q :: eraseFirstProject rest pid

/-- `main.update_project` (`PUT /projects/{id}`): requires a resolved
admin, 404 when the id is absent, otherwise a full overwrite of the
three mutable fields, returning the refreshed row. -/
def update_project (now : Nat) (token : Token) (project_id : Nat)
    (project : ProjectSchema) (db : DB) : Except HTTPError ProjectRow × DB :=
  match get_current_admin now token db with
  | Except.error e => (Except.error e, db)
  | Except.ok _ =>
    match db.projects.find? (fun q => q.id == project_id) with
    | none => (Except.error ⟨404, "Project not found"⟩, db)
    | some q =>
      (Except.ok (overwrite q project),
       { db with projects := replaceFirstProject db.projects project_id project })

/-- `main.delete_project` (`DELETE /projects/{id}`): requires a resolved
admin, 404 when the id is absent, otherwise removes the row. -/
def delete_project (now : Nat) (token : Token) (project_id : Nat) (db : DB) :
    Except HTTPError String × DB :=
  match get_current_admin now token db with
  | Except.error e => (Except.error e, db)
  | Except.ok _ =>
    match db.projects.find? (fun q => q.id == project_id) with
    | none => (Except.error ⟨404, "Project not found"⟩, db)
    | some _ =>
      (Except.ok "Project deleted successfully",
       { db with projects := eraseFirstProject db.projects project_id })

/-- Every state-mutating endpoint of the service, as one request type. -/
inductive Op where
  | contact (c : ContactForm)
  | register (a : AdminCreate)
  | login (username password : String)
  | createProject (title description : String) (image : UploadFile) (base_url : String)
  | updateProject (token : Token) (pid : Nat) (ps : ProjectSchema)
  | deleteProject (token : Token) (pid : Nat)

/-- One request processed against the server state: the state after the
handler returns (normally or with an HTTP error). -/
def step (now : Nat) (op : Op) (sys : Sys) : Sys :=
  match op with
  | Op.contact c => { sys with db := (save_message now c sys.db).2 }
  | Op.register a => { sys with db := (register_admin a sys.db).2 }
  | Op.login _ _ => sys
  | Op.createProject t d img burl => (create_project t d img burl sys).2
  | Op.updateProject tok pid ps =>
    { sys with db := (update_project now tok pid ps sys.db).2 }
  | Op.deleteProject tok pid =>
    { sys with db := (delete_project now tok pid sys.db).2 }

deriving instance DecidableEq for Except

/-! ### Helper lemmas about the row-list operations -/

/-- Splitting a project list at the first row matching an id: the
fetched row, the prefix of misses, and the effect of erase and replace
on that decomposition. -/
theorem findProject_split (ps : ProjectSchema) :
    ∀ (l : List ProjectRow) (pid : Nat) (q : ProjectRow),
    l.find? (fun x => x.id == pid) = some q →
    ∃ l1 l2, l = l1 ++ q :: l2 ∧ q.id = pid ∧ (∀ x ∈ l1, x.id ≠ pid) ∧
      eraseFirstProject l pid = l1 ++ l2 ∧
      replaceFirstProject l pid ps = l1 ++ overwrite q ps :: l2 := by
  intro l
  induction l with
  | nil => intro pid q h; simp at h
  | cons a rest ih =>
    intro pid q h
    by_cases hid : a.id = pid
    · have hb : (a.id == pid) = true := beq_iff_eq.mpr hid
      simp only [List.find?_cons, hb] at h
      injection h with h
      subst h
      refine ⟨[], rest, by simp, hid, by simp, ?_, ?_⟩
      · simp [eraseFirstProject, hb]
      · simp [replaceFirstProject, hb]
    · have hb : (a.id == pid) = false := by simp [hid]
      simp only [List.find?_cons, hb] at h
      obtain ⟨l1, l2, hsplit, hqid, hmiss, herase, hrepl⟩ := ih pid q h
      refine ⟨a :: l1, l2, by simp [hsplit], hqid, ?_, ?_, ?_⟩
      · intro x hx
        rcases List.mem_cons.mp hx with hx | hx
        · rw [hx]; exact hid
        · exact hmiss x hx
      · simp [eraseFirstProject, hb, herase]
      · simp [replaceFirstProject, hb, hrepl]

/-- When the project ids are pairwise distinct, no row left by
`eraseFirstProject l pid` carries the id `pid` — either the unique such
row was removed, or none existed. -/
theorem eraseFirstProject_no_pid :
    ∀ (l : List ProjectRow) (pid : Nat),
    (l.map (fun q => q.id)).Nodup →
    ∀ q ∈ eraseFirstProject l pid, q.id ≠ pid := by
  intro l
  induction l with
  | nil => intro pid _ q hq; simp [eraseFirstProject] at hq
  | cons a rest ih =>
    intro pid hnodup q hq
    have hnodup2 := hnodup
    rw [List.map_cons, List.nodup_cons] at hnodup2
    by_cases hid : a.id = pid
    · rw [eraseFirstProject, if_pos (beq_iff_eq.mpr hid)] at hq
      intro hqpid
      exact hnodup2.1 (by rw [hid, ← hqpid]; exact List.mem_map_of_mem _ hq)
    · rw [eraseFirstProject, if_neg (by simpa using hid)] at hq
      rcases List.mem_cons.mp hq with hq | hq
      · rw [hq]; exact hid
      · exact ih pid hnodup2.2 q hq

/-! ### Concrete fixtures used by witnesses and counterexamples -/

/-- A server state with one admin and one project. -/
def dbW : DB :=
  { admins := [⟨1, "admin", pwd_hash "pw"⟩],
    projects := [⟨1, "t0", "d0", "u0"⟩],
    messages := [],
    nextAdminId := 2, nextProjectId := 2, nextMessageId := 1 }

/-- An empty server state. -/
def sysW : Sys :=
  { db := { admins := [], projects := [], messages := [],
            nextAdminId := 1, nextProjectId := 1, nextMessageId := 1 },
    files := [] }

/-- A well-signed unexpired admin token for `dbW`. -/
def tokW : Token := Token.signed ⟨some "admin", 100⟩

/-- An update body. -/
def psW : ProjectSchema := ⟨"t1", "d1", "u1"⟩

/-! ### Claims -/

/-- C1: every failing token resolution in `get_current_admin` — tampered
or invalidly signed token, expired token, payload without a subject, or
subject matching no Admin row — produces the identical outcome, the
error `401 "Invalid authentication"`; no cause is distinguishable from
another, and an expired or tampered token gives the same outcome as a
missing subject. -/
theorem c1_auth_failures_uniform (now : Nat) (tok : Token) (db : DB) :
    (∀ e, get_current_admin now tok db = Except.error e →
      e = ⟨401, "Invalid authentication"⟩)
    ∧ get_current_admin now Token.tampered db
        = Except.error ⟨401, "Invalid authentication"⟩
    ∧ (∀ p : TokenPayload, p.exp < now →
        get_current_admin now (Token.signed p) db
          = Except.error ⟨401, "Invalid authentication"⟩)
    ∧ (∀ e2 : Nat, now ≤ e2 →
        get_current_admin now (Token.signed ⟨none, e2⟩) db
          = Except.error ⟨401, "Invalid authentication"⟩)
    ∧ (∀ u e2, now ≤ e2 → u ≠ "" →
        db.admins.find? (fun a => a.username == u) = none →
        get_current_admin now (Token.signed ⟨some u, e2⟩) db
          = Except.error ⟨401, "Invalid authentication"⟩) := by
  refine ⟨?_, ?_, ?_, ?_, ?_⟩
  · intro e h
    unfold get_current_admin at h
    repeat' split at h
    all_goals (cases h; try rfl)
  · rfl
  · intro p hexp
    simp [get_current_admin, jwt_decode, hexp]
  · intro e2 hle
    have hnl : ¬ (e2 < now) := Nat.not_lt.mpr hle
    simp [get_current_admin, jwt_decode, hnl]
  · intro u e2 hle hu hfind
    have hnl : ¬ (e2 < now) := Nat.not_lt.mpr hle
    simp [get_current_admin, jwt_decode, hnl, hu, hfind]

/-- Witness for C1: the uniform 401 exercised at concrete inputs — an
expired token, a tampered token, a token without subject, and a token
whose subject matches no admin of `dbW`. -/
theorem c1_auth_failures_uniform_witness :
    ((⟨401, "Invalid authentication"⟩ : HTTPError)
        = ⟨401, "Invalid authentication"⟩)
    ∧ get_current_admin 0 Token.tampered dbW
        = Except.error ⟨401, "Invalid authentication"⟩
    ∧ get_current_admin 20 (Token.signed ⟨some "admin", 10⟩) dbW
        = Except.error ⟨401, "Invalid authentication"⟩
    ∧ get_current_admin 0 (Token.signed ⟨none, 10⟩) dbW
        = Except.error ⟨401, "Invalid authentication"⟩
    ∧ get_current_admin 0 (Token.signed ⟨some "ghost", 10⟩) dbW
        = Except.error ⟨401, "Invalid authentication"⟩ :=
  ⟨(c1_auth_failures_uniform 20 (Token.signed ⟨some "admin", 10⟩) dbW).1
      ⟨401, "Invalid authentication"⟩ (by decide),
   (c1_auth_failures_uniform 0 Token.tampered dbW).2.1,
   (c1_auth_failures_uniform 20 (Token.signed ⟨some "admin", 10⟩) dbW).2.2.1
      ⟨some "admin", 10⟩ (by decide),
   (c1_auth_failures_uniform 0 Token.tampered dbW).2.2.2.1 10 (by decide),
   (c1_auth_failures_uniform 0 Token.tampered dbW).2.2.2.2 "ghost" 10
      (by decide) (by decide) (by decide)⟩

/-- C2 counterexample: the content type `"image/jpg"` is neither
`"image/png"` nor `"image/jpeg"`, yet `create_project` accepts the
upload instead of rejecting it with a 400 validation error. -/
theorem c2_counterexample :
    (("image/jpg" : String) ≠ "image/png" ∧ ("image/jpg" : String) ≠ "image/jpeg")
    ∧ (create_project "t" "d" ⟨"a.jpg", "image/jpg", [1, 2]⟩ "http://h/" sysW).1
        = Except.ok ⟨1, "t", "d", "http://h/uploads/a.jpg"⟩ := by
  refine ⟨⟨by decide, by decide⟩, ?_⟩
  decide

/-- C2 (amended): `create_project` accepts an upload exactly when the
image content type is one of `"image/png"`, `"image/jpeg"` or
`"image/jpg"`; for every other content type it rejects with the
validation error `400 "Invalid image format"` and leaves the state
unchanged. -/
theorem c2_content_type_gate (title description : String) (image : UploadFile)
    (base_url : String) (sys : Sys) :
    ((∃ p sys2, create_project title description image base_url sys
        = (Except.ok p, sys2))
      ↔ image.content_type ∈ allowed_types)
    ∧ (image.content_type ∉ allowed_types →
        create_project title description image base_url sys
          = (Except.error ⟨400, "Invalid image format"⟩, sys)) := by
  constructor
  · constructor
    · rintro ⟨p, sys2, h⟩
      by_contra hmem
      simp [create_project, hmem] at h
    · intro hmem
      have hres : create_project title description image base_url sys
          = (Except.ok ⟨sys.db.nextProjectId, title, description,
              stripChar '/' base_url ++ "/uploads/" ++ image.filename⟩,
             ⟨{ sys.db with
                projects := sys.db.projects ++ [⟨sys.db.nextProjectId, title,
                  description,
                  stripChar '/' base_url ++ "/uploads/" ++ image.filename⟩],
                nextProjectId := sys.db.nextProjectId + 1 },
              fsWrite sys.files (UPLOAD_DIR ++ "/" ++ image.filename)
                image.content⟩) := by
        simp [create_project, hmem]
      exact ⟨_, _, hres⟩
  · intro hmem
    simp [create_project, hmem]

/-- Witness for C2 (amended): a png upload is accepted, a pdf upload is
rejected with 400 and the state is returned untouched. -/
theorem c2_content_type_gate_witness :
    ((∃ p sys2, create_project "t" "d" ⟨"a.png", "image/png", []⟩ "http://h/" sysW
        = (Except.ok p, sys2))
      ↔ ("image/png" : String) ∈ allowed_types)
    ∧ (("application/pdf" : String) ∉ allowed_types
       ∧ create_project "t" "d" ⟨"f.pdf", "application/pdf", []⟩ "http://h/" sysW
          = (Except.error ⟨400, "Invalid image format"⟩, sysW)) :=
  ⟨(c2_content_type_gate "t" "d" ⟨"a.png", "image/png", []⟩ "http://h/" sysW).1,
   by decide,
   (c2_content_type_gate "t" "d" ⟨"f.pdf", "application/pdf", []⟩ "http://h/" sysW).2
      (by decide)⟩

/-- C3: with a rejected content type (`"text/plain"` or any other type
outside the allowed set), `create_project` fails with the 400 validation
error before any side effect: the returned state is the input state, so
no Project row is inserted and no file is written. -/
theorem c3_reject_no_side_effects (title description : String) (image : UploadFile)
    (base_url : String) (sys : Sys)
    (h : image.content_type ∉ allowed_types) :
    (create_project title description image base_url sys).1
      = Except.error ⟨400, "Invalid image format"⟩
    ∧ (create_project title description image base_url sys).2 = sys
    ∧ (create_project title description image base_url sys).2.db.projects
        = sys.db.projects
    ∧ (create_project title description image base_url sys).2.files = sys.files := by
  refine ⟨?_, ?_, ?_, ?_⟩ <;> simp [create_project, h]

/-- Witness for C3: a `"text/plain"` upload against the empty state. -/
theorem c3_reject_no_side_effects_witness :
    (("text/plain" : String) ∉ allowed_types)
    ∧ ((create_project "t" "d" ⟨"x.txt", "text/plain", [1]⟩ "http://h/" sysW).1
        = Except.error ⟨400, "Invalid image format"⟩
      ∧ (create_project "t" "d" ⟨"x.txt", "text/plain", [1]⟩ "http://h/" sysW).2 = sysW
      ∧ (create_project "t" "d" ⟨"x.txt", "text/plain", [1]⟩ "http://h/" sysW).2.db.projects
          = sysW.db.projects
      ∧ (create_project "t" "d" ⟨"x.txt", "text/plain", [1]⟩ "http://h/" sysW).2.files
          = sysW.files) :=
  ⟨by decide,
   c3_reject_no_side_effects "t" "d" ⟨"x.txt", "text/plain", [1]⟩ "http://h/" sysW
     (by decide)⟩

/-- C4 counterexample: a token issued at time 0 without an explicit
expiry delta carries expiry 15 minutes, not the claimed 30. -/
theorem c4_counterexample :
    tokenExp (create_access_token 0 (some "admin") none) = some 15
    ∧ (some 15 : Option Nat) ≠ some 30 := by
  constructor
  · rfl
  · decide

/-- C4 (amended): a token issued without an explicit expiry delta
expires 15 minutes after issuance (the `create_access_token` default),
while the token issued by the login endpoint expires 30 minutes after
issuance (`ACCESS_TOKEN_EXPIRE_MINUTES`). -/
theorem c4_token_ttl (now : Nat) (sub : Option String) (u p : String) (db : DB) :
    tokenExp (create_access_token now sub none) = some (now + 15)
    ∧ (∀ tok, login_admin now u p db = Except.ok tok →
        tokenExp tok = some (now + 30)) := by
  constructor
  · rfl
  · intro tok h
    unfold login_admin at h
    split at h
    · cases h
    · cases h; rfl

/-- Witness for C4 (amended): logging in against `dbW` with the right
password yields a token expiring at `0 + 30`. -/
theorem c4_token_ttl_witness :
    tokenExp (create_access_token 0 none none) = some (0 + 15)
    ∧ tokenExp (Token.signed ⟨some "admin", 30⟩) = some (0 + 30) :=
  ⟨(c4_token_ttl 0 none "admin" "pw" dbW).1,
   (c4_token_ttl 0 none "admin" "pw" dbW).2 (Token.signed ⟨some "admin", 30⟩)
     (by decide)⟩

/-- C5: if the state already contains an Admin with username `u`, a
second registration with username `u` fails with the 400 Conflict error
and returns the state unchanged, so the first admin's row — and hence
their credentials — is exactly as before the call. -/
theorem c5_duplicate_admin (u p2 : String) (db : DB)
    (h : ∃ a ∈ db.admins, a.username = u) :
    register_admin ⟨u, p2⟩ db = (Except.error ⟨400, "Admin already exists"⟩, db) := by
  obtain ⟨a, ha, hau⟩ := h
  cases hfind : db.admins.find? (fun x => x.username == u) with
  | none =>
    rw [List.find?_eq_none] at hfind
    exact absurd (beq_iff_eq.mpr hau) (hfind a ha)
  | some b =>
    simp [register_admin, hfind]

/-- Witness for C5: re-registering `"admin"` against `dbW` fails with
the Conflict error and leaves `dbW` unchanged. -/
theorem c5_duplicate_admin_witness :
    register_admin ⟨"admin", "pw2"⟩ dbW
      = (Except.error ⟨400, "Admin already exists"⟩, dbW) :=
  c5_duplicate_admin "admin" "pw2" dbW ⟨⟨1, "admin", pwd_hash "pw"⟩, by decide, rfl⟩

/-- C6: round trip — for every successful `create_project`, a subsequent
`get_project` on the returned id succeeds and returns the very record,
whose title and description equal the submitted values, whose id is the
freshly assigned id, and whose image URL is the derived URL built from
the caller's base URL and the stored filename under `uploads`. -/
theorem c6_create_then_get (title description : String) (image : UploadFile)
    (base_url : String) (sys : Sys) (p : ProjectRow) (sys2 : Sys)
    (hfresh : ∀ q ∈ sys.db.projects, q.id ≠ sys.db.nextProjectId)
    (h : create_project title description image base_url sys = (Except.ok p, sys2)) :
    get_project p.id sys2.db = Except.ok p
    ∧ p.title = title ∧ p.description = description
    ∧ p.id = sys.db.nextProjectId
    ∧ p.image_url = stripChar '/' base_url ++ "/uploads/" ++ image.filename := by
  by_cases hmem : image.content_type ∈ allowed_types
  · simp only [create_project, hmem, if_true, Prod.mk.injEq] at h
    obtain ⟨h1, h2⟩ := h
    injection h1 with h1
    subst h1
    subst h2
    have hnone : (sys.db.projects).find?
        (fun q => q.id == sys.db.nextProjectId) = none := by
      rw [List.find?_eq_none]
      intro x hx
      simpa using hfresh x hx
    refine ⟨?_, rfl, rfl, rfl, rfl⟩
    simp [get_project, List.find?_append, hnone]
  · simp [create_project, hmem] at h

/-- A png upload used by the round-trip witness. -/
def imgW : UploadFile := ⟨"a.png", "image/png", [7]⟩

/-- The project returned by the round-trip witness upload. -/
def pW6 : ProjectRow := ⟨1, "t", "d", "http://h/uploads/a.png"⟩

/-- The state after the round-trip witness upload. -/
def sysW6 : Sys :=
  { db := { admins := [], projects := [pW6], messages := [],
            nextAdminId := 1, nextProjectId := 2, nextMessageId := 1 },
    files := [("uploads/a.png", [7])] }

/-- Witness for C6: creating a project in the empty state and reading it
back by its assigned id. -/
theorem c6_create_then_get_witness :
    get_project pW6.id sysW6.db = Except.ok pW6
    ∧ pW6.title = "t" ∧ pW6.description = "d"
    ∧ pW6.id = sysW.db.nextProjectId
    ∧ pW6.image_url = stripChar '/' "http://h/" ++ "/uploads/" ++ imgW.filename :=
  c6_create_then_get "t" "d" imgW "http://h/" sysW pW6 sysW6 (by decide) (by decide)

/-- C7: `update_project` called by a resolved admin fails with
`404 "Project not found"` and an unchanged state when no Project has the
given id; when the Project exists it overwrites all three mutable fields
with the supplied values — a full overwrite, its id untouched — and
returns the updated record. -/
theorem c7_update_semantics (now : Nat) (tok : Token) (pid : Nat)
    (ps : ProjectSchema) (db : DB) (a : AdminRow)
    (hadmin : get_current_admin now tok db = Except.ok a) :
    (db.projects.find? (fun q => q.id == pid) = none →
      update_project now tok pid ps db
        = (Except.error ⟨404, "Project not found"⟩, db))
    ∧ (∀ q, db.projects.find? (fun q2 => q2.id == pid) = some q →
        ∃ p2, update_project now tok pid ps db
            = (Except.ok p2,
               { db with projects := replaceFirstProject db.projects pid ps })
          ∧ p2.id = q.id ∧ p2.title = ps.title ∧ p2.description = ps.description
          ∧ p2.image_url = ps.image_url) := by
  constructor
  · intro hnone
    simp [update_project, hadmin, hnone]
  · intro q hq
    exact ⟨overwrite q ps, by simp [update_project, hadmin, hq], rfl, rfl, rfl, rfl⟩

/-- Witness for C7: updating the absent id 99 of `dbW` gives 404 with
the state unchanged; updating the existing id 1 overwrites all three
fields of that row. -/
theorem c7_update_semantics_witness :
    update_project 0 tokW 99 psW dbW
      = (Except.error ⟨404, "Project not found"⟩, dbW)
    ∧ (∃ p2, update_project 0 tokW 1 psW dbW
          = (Except.ok p2,
             { dbW with projects := replaceFirstProject dbW.projects 1 psW })
        ∧ p2.id = (⟨1, "t0", "d0", "u0"⟩ : ProjectRow).id ∧ p2.title = psW.title
        ∧ p2.description = psW.description ∧ p2.image_url = psW.image_url) :=
  ⟨(c7_update_semantics 0 tokW 99 psW dbW ⟨1, "admin", pwd_hash "pw"⟩
      (by decide)).1 (by decide),
   (c7_update_semantics 0 tokW 1 psW dbW ⟨1, "admin", pwd_hash "pw"⟩
      (by decide)).2 ⟨1, "t0", "d0", "u0"⟩ (by decide)⟩

/-- C8: `delete_project` on an absent id returns `404 "Project not
found"` and leaves the store unchanged; on an existing id it removes
that Project, and when the project ids are distinct (as the primary key
guarantees) no row with that id appears in a subsequent
`get_projects`. -/
theorem c8_delete_semantics (now : Nat) (tok : Token) (pid : Nat) (db : DB)
    (a : AdminRow) (hadmin : get_current_admin now tok db = Except.ok a) :
    (db.projects.find? (fun q => q.id == pid) = none →
      delete_project now tok pid db
        = (Except.error ⟨404, "Project not found"⟩, db))
    ∧ (∀ q0, db.projects.find? (fun q => q.id == pid) = some q0 →
        delete_project now tok pid db
          = (Except.ok "Project deleted successfully",
             { db with projects := eraseFirstProject db.projects pid }))
    ∧ ((db.projects.map (fun q => q.id)).Nodup →
        ∀ q ∈ get_projects
            { db with projects := eraseFirstProject db.projects pid },
          q.id ≠ pid) := by
  refine ⟨?_, ?_, ?_⟩
  · intro hnone
    simp [delete_project, hadmin, hnone]
  · intro q0 hq
    simp [delete_project, hadmin, hq]
  · intro hnodup q hq
    exact eraseFirstProject_no_pid db.projects pid hnodup q hq

/-- Witness for C8: deleting the absent id 99 of `dbW` gives 404 with
the state unchanged; deleting the existing id 1 removes the row, which
then no longer appears in the project listing. -/
theorem c8_delete_semantics_witness :
    delete_project 0 tokW 99 dbW = (Except.error ⟨404, "Project not found"⟩, dbW)
    ∧ delete_project 0 tokW 1 dbW
        = (Except.ok "Project deleted successfully",
           { dbW with projects := eraseFirstProject dbW.projects 1 })
    ∧ (∀ q ∈ get_projects { dbW with projects := eraseFirstProject dbW.projects 1 },
        q.id ≠ 1) :=
  ⟨(c8_delete_semantics 0 tokW 99 dbW ⟨1, "admin", pwd_hash "pw"⟩
      (by decide)).1 (by decide),
   (c8_delete_semantics 0 tokW 1 dbW ⟨1, "admin", pwd_hash "pw"⟩
      (by decide)).2.1 ⟨1, "t0", "d0", "u0"⟩ (by decide),
   (c8_delete_semantics 0 tokW 1 dbW ⟨1, "admin", pwd_hash "pw"⟩
      (by decide)).2.2 (by decide)⟩

/-- C9: a stored contact message's timestamp is the server clock at
creation — the request body carries only name, email and message — and
contact messages are immutable: no operation of the system updates or
deletes an existing ContactMessage row; every step leaves the messages
list intact, at most appending to it. -/
theorem c9_contact_immutability (now : Nat) (c : ContactForm) (db : DB)
    (op : Op) (sys : Sys) :
    (save_message now c db).2.messages
      = db.messages ++ [⟨db.nextMessageId, c.name, c.email, c.message, now⟩]
    ∧ (save_message now c db).1 = Except.ok "Message received"
    ∧ ∃ tail, (step now op sys).db.messages = sys.db.messages ++ tail := by
  refine ⟨rfl, rfl, ?_⟩
  cases op with
  | contact c2 =>
    exact ⟨[⟨sys.db.nextMessageId, c2.name, c2.email, c2.message, now⟩], rfl⟩
  | register a =>
    refine ⟨[], ?_⟩
    cases hf : sys.db.admins.find? (fun x => x.username == a.username) with
    | none => simp [step, register_admin, hf]
    | some b => simp [step, register_admin, hf]
  | login u p => exact ⟨[], by simp [step]⟩
  | createProject t d img burl =>
    refine ⟨[], ?_⟩
    by_cases hmem : img.content_type ∈ allowed_types
    · simp [step, create_project, hmem]
    · simp [step, create_project, hmem]
  | updateProject tok pid ps =>
    refine ⟨[], ?_⟩
    cases hadm : get_current_admin now tok sys.db with
    | error e => simp [step, update_project, hadm]
    | ok a2 =>
      cases hf : sys.db.projects.find? (fun q => q.id == pid) with
      | none => simp [step, update_project, hadm, hf]
      | some q => simp [step, update_project, hadm, hf]
  | deleteProject tok pid =>
    refine ⟨[], ?_⟩
    cases hadm : get_current_admin now tok sys.db with
    | error e => simp [step, delete_project, hadm]
    | ok a2 =>
      cases hf : sys.db.projects.find? (fun q => q.id == pid) with
      | none => simp [step, delete_project, hadm, hf]
      | some q => simp [step, delete_project, hadm, hf]

/-- C10: frame conditions — a successful `delete_project` removes
exactly the first (under distinct ids: the only) row with the given id,
leaving every other Project row, every ContactMessage row and every
Admin row unchanged; a successful `update_project` replaces only the
fields of that row, its id unchanged, leaving all other rows
unchanged. -/
theorem c10_frame (now : Nat) (tok : Token) (pid : Nat) (ps : ProjectSchema)
    (db : DB) :
    (∀ r db2, delete_project now tok pid db = (Except.ok r, db2) →
      db2.admins = db.admins ∧ db2.messages = db.messages
      ∧ ∃ l1 q l2, db.projects = l1 ++ q :: l2 ∧ q.id = pid
          ∧ (∀ x ∈ l1, x.id ≠ pid) ∧ db2.projects = l1 ++ l2)
    ∧ (∀ p2 db2, update_project now tok pid ps db = (Except.ok p2, db2) →
      db2.admins = db.admins ∧ db2.messages = db.messages
      ∧ ∃ l1 q l2, db.projects = l1 ++ q :: l2 ∧ q.id = pid
          ∧ (∀ x ∈ l1, x.id ≠ pid)
          ∧ db2.projects = l1 ++ p2 :: l2 ∧ p2.id = q.id
          ∧ p2.title = ps.title ∧ p2.description = ps.description
          ∧ p2.image_url = ps.image_url) := by
  constructor
  · intro r db2 h
    cases hadm : get_current_admin now tok db with
    | error e => simp [delete_project, hadm] at h
    | ok a =>
      cases hf : db.projects.find? (fun q => q.id == pid) with
      | none => simp [delete_project, hadm, hf] at h
      | some q0 =>
        have heq : delete_project now tok pid db
            = (Except.ok "Project deleted successfully",
               { db with projects := eraseFirstProject db.projects pid }) := by
          simp [delete_project, hadm, hf]
        have hpair := heq.symm.trans h
        have hdb2 : ({ db with projects := eraseFirstProject db.projects pid } : DB)
            = db2 := congrArg Prod.snd hpair
        obtain ⟨l1, l2, hsplit, hq0, hmiss, herase, -⟩ :=
          findProject_split ⟨"", "", ""⟩ db.projects pid q0 hf
        refine ⟨?_, ?_, l1, q0, l2, hsplit, hq0, hmiss, ?_⟩
        · rw [← hdb2]
        · rw [← hdb2]
        · rw [← hdb2]; exact herase
  · intro p2 db2 h
    cases hadm : get_current_admin now tok db with
    | error e => simp [update_project, hadm] at h
    | ok a =>
      cases hf : db.projects.find? (fun q => q.id == pid) with
      | none => simp [update_project, hadm, hf] at h
      | some q0 =>
        have heq : update_project now tok pid ps db
            = (Except.ok (overwrite q0 ps),
               { db with projects := replaceFirstProject db.projects pid ps }) := by
          simp [update_project, hadm, hf]
        have hpair := heq.symm.trans h
        have hdb2 : ({ db with projects := replaceFirstProject db.projects pid ps } : DB)
            = db2 := congrArg Prod.snd hpair
        have hfst : Except.ok (overwrite q0 ps) = Except.ok p2 :=
          congrArg Prod.fst hpair
        injection hfst with hp2
        subst hp2
        obtain ⟨l1, l2, hsplit, hq0, hmiss, -, hrepl⟩ :=
          findProject_split ps db.projects pid q0 hf
        refine ⟨?_, ?_, l1, q0, l2, hsplit, hq0, hmiss, ?_, rfl, rfl, rfl, rfl⟩
        · rw [← hdb2]
        · rw [← hdb2]
        · rw [← hdb2]; exact hrepl

/-- The state `dbW` after deleting its only project. -/
def dbWdel : DB :=
  { admins := [⟨1, "admin", pwd_hash "pw"⟩], projects := [], messages := [],
    nextAdminId := 2, nextProjectId := 2, nextMessageId := 1 }

/-- The row of `dbW` after the witness update. -/
def pW10 : ProjectRow := ⟨1, "t1", "d1", "u1"⟩

/-- The state `dbW` after updating its only project with `psW`. -/
def dbWupd : DB :=
  { admins := [⟨1, "admin", pwd_hash "pw"⟩], projects := [pW10], messages := [],
    nextAdminId := 2, nextProjectId := 2, nextMessageId := 1 }

/-- Witness for C10: the frame conditions exercised on `dbW` — deleting
project 1 and updating project 1 each touch only that row. -/
theorem c10_frame_witness :
    (dbWdel.admins = dbW.admins ∧ dbWdel.messages = dbW.messages
      ∧ ∃ l1 q l2, dbW.projects = l1 ++ q :: l2 ∧ q.id = 1
          ∧ (∀ x ∈ l1, x.id ≠ 1) ∧ dbWdel.projects = l1 ++ l2)
    ∧ (dbWupd.admins = dbW.admins ∧ dbWupd.messages = dbW.messages
      ∧ ∃ l1 q l2, dbW.projects = l1 ++ q :: l2 ∧ q.id = 1
          ∧ (∀ x ∈ l1, x.id ≠ 1)
          ∧ dbWupd.projects = l1 ++ pW10 :: l2 ∧ pW10.id = q.id
          ∧ pW10.title = psW.title ∧ pW10.description = psW.description
          ∧ pW10.image_url = psW.image_url) :=
  ⟨(c10_frame 0 tokW 1 psW dbW).1 "Project deleted successfully" dbWdel (by decide),
   (c10_frame 0 tokW 1 psW dbW).2 pW10 dbWupd (by decide)⟩
